import Mathlib

/-!
# Service worker of the homepage PWA (`sw.js`)

A shallow embedding of the install, activate and fetch listeners of `sw.js`
and of the part of the browser they talk to: cache storage, the network, the
console.

* A promise is a function from the current `World` to the way the promise
  settles and the world it leaves behind.  `then`, `catch` and `Promise.all`
  are the combinators `Promise.thenDo`, `Promise.catchDo`, `Promise.all`.
* The browser is the record `Env`: the origin of the worker, the network, and
  the cache-storage calls whose failure the handlers can meet (`caches.open`,
  `cache.put`, `caches.delete`).
* Every call on the browser is appended to `World.ops`, every console call to
  `World.console`.
-/

namespace SW

/-! ## Data model -/

/-- The fields of a `Response` that the worker reads or writes. -/
structure Response where
  status : Nat
  statusText : String
  type : String
  headers : List (String × String)
  body : String
deriving DecidableEq, Repr

/-- The fields of a `Request` that the fetch listener reads: `request.url`,
`new URL(request.url).origin` and `request.destination`. -/
structure Request where
  url : String
  origin : String
  destination : String
deriving DecidableEq, Repr

/-- One cache (a partition): request identity and stored response, oldest first. -/
abbrev Cache := List (String × Response)

/-- The cache storage of the origin: named caches in creation order. -/
abbrev CacheStorage := List (String × Cache)

/-- How a promise settles. -/
inductive Settled (α : Type) where
  | resolved (value : α)
  | rejected (reason : String)
deriving DecidableEq, Repr

/-- A call the worker makes on the browser. -/
inductive Op where
  | cachesOpen (name : String)
  | cacheAddAll (name : String) (urls : List String)
  | cachePut (name : String) (key : String) (response : Response)
  | cachesMatch (key : String)
  | cachesKeys
  | cachesDelete (name : String)
  | fetch (url : String)
  | skipWaiting
  | clientsClaim
deriving DecidableEq, Repr

/-- A console call: the method (`log`, `warn`, `error`), the message, and the
error or url passed after it, if any. -/
structure ConsoleEntry where
  level : String
  message : String
  arg : Option String
deriving DecidableEq, Repr

/-- The browser as the worker meets it.  `net url` is how `fetch(url)` settles;
`openError name` and `deleteError name` are the reason with which
`caches.open(name)` resp. `caches.delete(name)` rejects, `none` when the call
succeeds; `putError key response` is the reason with which
`cache.put(request, response)` rejects for the request of that identity (a
request that is not a GET, a response that carries `Vary: *`, a write that
fails), `none` when the put goes through. -/
structure Env where
  locationOrigin : String
  net : String → Except String Response
  openError : String → Option String
  deleteError : String → Option String
  putError : String → Response → Option String

/-- The mutable part of the world: cache storage, and the record of what the
worker has called and printed so far. -/
structure World where
  storage : CacheStorage
  ops : List Op
  console : List ConsoleEntry
deriving DecidableEq, Repr

/-! ## Constants of `sw.js` (lines 2-15) -/

def CACHE_NAME : String := "homepage-pwa-v2"

def RUNTIME_CACHE : String := "runtime-cache-v2"

def urlsToCache : List String :=
  ["/", "/index.html", "/manifest.json"]

def externalResources : List String :=
  ["https://cdn.search.brave.com/serp/v3/_app/immutable/assets/inter-latin-wght-normal.Dx4kXJAl.woff2",
   "https://brave.com/static-assets/images/brave-logo.svg",
   "https://cdn.search.brave.com/serp/v3/_app/immutable/assets/brave-search-icon.CsIFM2aN.svg"]

/-- The list `cacheWhitelist` of the activate listener (line 43). -/
def cacheWhitelist : List String := [CACHE_NAME, RUNTIME_CACHE]

/-! ## Cache storage -/

/-- The first response stored in a cache under a key (`cache.match`). -/
def cacheMatch : Cache → String → Option Response
  | [], _ => none
  | (k, r) :: rest, key => if k = key then some r else cacheMatch rest key

/-- The keys of a cache, oldest first (`cache.keys`). -/
def cacheKeys (c : Cache) : List String := c.map Prod.fst

/-- The effect of `cache.put`: an entry with the same key is replaced, the new
entry is the newest. -/
def cachePutEntry (c : Cache) (key : String) (r : Response) : Cache :=
  c.filter (fun e => decide (e.1 ≠ key)) ++ [(key, r)]

/-- Whether a cache of that name exists (`caches.has`). -/
def cachesHas (S : CacheStorage) (name : String) : Bool :=
  S.any (fun p => decide (p.1 = name))

/-- The contents of the cache of a given name; empty when there is none. -/
def cacheOf : CacheStorage → String → Cache
  | [], _ => []
  | (n, c) :: rest, name => if n = name then c else cacheOf rest name

/-- The storage after `caches.open(name)` succeeded: the cache is created,
empty, when it does not exist. -/
def ensureCache (S : CacheStorage) (name : String) : CacheStorage :=
  if cachesHas S name then S else S ++ [(name, [])]

/-- Replace the contents of the cache of a given name. -/
def modifyCache : CacheStorage → String → (Cache → Cache) → CacheStorage
  | [], _, _ => []
  | (n, c) :: rest, name, f => (n, if n = name then f c else c) :: modifyCache rest name f

/-- The names of the existing caches (`caches.keys`). -/
def cacheNames (S : CacheStorage) : List String := S.map Prod.fst

/-- The result of `caches.match(request)`: the caches are searched in creation
order and the first hit is returned. -/
def storageMatch : CacheStorage → String → Option Response
  | [], _ => none
  | (_, c) :: rest, key =>
    match cacheMatch c key with
    | some r => some r
    | none => storageMatch rest key

/-! ## Promises -/

/-- A promise, run to the point where it has settled: from the world in which
it is started to its settlement and the world it leaves. -/
def Promise (α : Type) : Type := World → Settled α × World

/-- Record a call on the browser. -/
def World.call (w : World) (op : Op) : World :=
  ⟨w.storage, w.ops ++ [op], w.console⟩

/-- Record a console call. -/
def World.print (w : World) (entry : ConsoleEntry) : World :=
  ⟨w.storage, w.ops, w.console ++ [entry]⟩

/-- A promise already resolved with a value; also a callback that returns a
plain value. -/
def Promise.resolve {α : Type} (a : α) : Promise α :=
  fun w => (Settled.resolved a, w)

/-- The promise `p.then(f)`: the callback runs when `p` resolves, a rejection
of `p` passes through. -/
def Promise.thenDo {α β : Type} (p : Promise α) (f : α → Promise β) : Promise β :=
  fun w =>
    match p w with
    | (Settled.resolved a, w1) => f a w1
    | (Settled.rejected e, w1) => (Settled.rejected e, w1)

/-- The promise `p.catch(h)`: the handler runs when `p` rejects and its result
settles the promise; a resolution of `p` passes through. -/
def Promise.catchDo {α : Type} (p : Promise α) (h : String → Promise α) : Promise α :=
  fun w =>
    match p w with
    | (Settled.resolved a, w1) => (Settled.resolved a, w1)
    | (Settled.rejected e, w1) => h e w1

/-- The promise `Promise.all(ps)`, its value dropped.  Every member has been
started before `Promise.all` is called, so every member runs whatever becomes
of the others; the result rejects when a member rejects.  (With two rejections
the browser reports the one that settles first; here it is the first in the
array.) -/
def Promise.all : List (Promise Unit) → Promise Unit
  | [] => Promise.resolve ()
  | p :: ps => fun w =>
    match p w with
    | (Settled.resolved _, w1) => Promise.all ps w1
    | (Settled.rejected e, w1) => (Settled.rejected e, (Promise.all ps w1).2)

/-- A promise chain that is started and not awaited: it has its effects, and
the code that started it goes on at once. -/
def Promise.detach {α : Type} (p : Promise α) : Promise Unit :=
  fun w => (Settled.resolved (), (p w).2)

/-- A console call followed by the rest of a callback. -/
def logThen {α : Type} (entry : ConsoleEntry) (p : Promise α) : Promise α :=
  fun w => p (w.print entry)

/-! ## The browser calls the worker makes -/

/-- The call `caches.open(name)`: resolves with the cache (named by `name`),
creating it when it does not exist. -/
def cachesOpen (env : Env) (name : String) : Promise String :=
  fun w =>
    match env.openError name with
    | some e => (Settled.rejected e, w.call (Op.cachesOpen name))
    | none =>
      (Settled.resolved name,
        ⟨ensureCache w.storage name, w.ops ++ [Op.cachesOpen name], w.console⟩)

/-- A response `cache.addAll` accepts: an ok status other than 206. -/
def Response.addable (r : Response) : Bool :=
  decide (200 ≤ r.status) && decide (r.status ≤ 299) && decide (r.status ≠ 206)

/-- The fetches of `cache.addAll(urls)`: every url is fetched, and the whole is
an error as soon as one fetch fails or yields a response that cannot be
added. -/
def fetchAll (env : Env) : List String → Except String (List (String × Response))
  | [] => Except.ok []
  | u :: us =>
    match env.net u with
    | Except.error e => Except.error e
    | Except.ok r =>
      if r.addable then
        match fetchAll env us with
        | Except.error e => Except.error e
        | Except.ok rest => Except.ok ((u, r) :: rest)
      else Except.error "TypeError"

/-- The call `cache.addAll(urls)` on the cache named `cache`.  As the Cache
interface defines it, the entries are written only when every fetch has
succeeded; otherwise the promise rejects and the cache is left as it was. -/
def cacheAddAll (env : Env) (cache : String) (urls : List String) : Promise Unit :=
  fun w =>
    match fetchAll env urls with
    | Except.error e => (Settled.rejected e, w.call (Op.cacheAddAll cache urls))
    | Except.ok entries =>
      (Settled.resolved (),
        ⟨modifyCache w.storage cache
            (fun c => entries.foldl (fun acc e => cachePutEntry acc e.1 e.2) c),
          w.ops ++ [Op.cacheAddAll cache urls], w.console⟩)

/-- The call `cache.put(request, response)` on the cache named `cache`: the
entry is stored, or the put rejects and stores nothing. -/
def cachePut (env : Env) (cache : String) (key : String) (r : Response) : Promise Unit :=
  fun w =>
    match env.putError key r with
    | some e => (Settled.rejected e, w.call (Op.cachePut cache key r))
    | none =>
      (Settled.resolved (),
        ⟨modifyCache w.storage cache (fun c => cachePutEntry c key r),
          w.ops ++ [Op.cachePut cache key r], w.console⟩)

/-- The call `caches.match(request)`: `none` stands for `undefined`. -/
def cachesMatch (key : String) : Promise (Option Response) :=
  fun w => (Settled.resolved (storageMatch w.storage key), w.call (Op.cachesMatch key))

/-- The call `caches.delete(name)`: resolves with whether the cache existed
and removes it; a delete that fails rejects and removes nothing. -/
def cachesDelete (env : Env) (name : String) : Promise Bool :=
  fun w =>
    match env.deleteError name with
    | some e => (Settled.rejected e, w.call (Op.cachesDelete name))
    | none =>
      (Settled.resolved (cachesHas w.storage name),
        ⟨w.storage.filter (fun p => decide (p.1 ≠ name)),
          w.ops ++ [Op.cachesDelete name], w.console⟩)

/-- The call `fetch(request)`. -/
def fetch (env : Env) (url : String) : Promise Response :=
  fun w =>
    match env.net url with
    | Except.ok r => (Settled.resolved r, w.call (Op.fetch url))
    | Except.error e => (Settled.rejected e, w.call (Op.fetch url))

/-! ## The install listener (lines 18-38) -/

/-- The first member of the array given to `Promise.all` (lines 22-25): open
the shell cache and add the seed list to it. -/
def installShellWork (env : Env) : Promise Unit :=
  Promise.thenDo (cachesOpen env CACHE_NAME) (fun cache =>
    logThen ⟨"log", "[Service Worker] Caching app shell", none⟩
      (cacheAddAll env cache urlsToCache))

/-- The second member of the array given to `Promise.all` (lines 26-31): open
the runtime cache and add the external resources to it; a rejection of
`addAll` is caught and printed as a warning. -/
def installRuntimeWork (env : Env) : Promise Unit :=
  Promise.thenDo (cachesOpen env RUNTIME_CACHE) (fun cache =>
    logThen ⟨"log", "[Service Worker] Caching external resources", none⟩
      (Promise.catchDo (cacheAddAll env cache externalResources)
        (fun error =>
          logThen
            ⟨"warn", "[Service Worker] Some external resources failed to cache:", some error⟩
            (Promise.resolve ()))))

/-- The promise the install listener passes to `event.waitUntil` (lines 20-35):
`Promise.all` of the two members, with a `catch` that prints the error. -/
def installWork (env : Env) : Promise Unit :=
  Promise.catchDo
    (Promise.all [installShellWork env, installRuntimeWork env])
    (fun error =>
      logThen ⟨"error", "[Service Worker] Cache failed:", some error⟩ (Promise.resolve ()))

/-- The install listener: the settlement of the promise given to
`event.waitUntil`, and the world afterwards.  The install signal succeeds
exactly when that promise resolves. -/
def installHandler (env : Env) (w : World) : Settled Unit × World :=
  let r := installWork env (w.print ⟨"log", "[Service Worker] Installing...", none⟩)
  (r.1, r.2.call Op.skipWaiting)

/-! ## The activate listener (lines 41-58) -/

/-- The callback given to `cacheNames.map` (lines 47-52): a cache that is not
on the whitelist is deleted, for a cache on the whitelist nothing is done. -/
def deleteIfOld (env : Env) (cacheName : String) : Promise Unit :=
  if ¬ cacheName ∈ cacheWhitelist then
    logThen ⟨"log", "[Service Worker] Deleting old cache:", some cacheName⟩
      (Promise.thenDo (cachesDelete env cacheName) (fun _ => Promise.resolve ()))
  else Promise.resolve ()

/-- The callback given to `caches.keys().then` (lines 45-54): `Promise.all`
of the deletes, which `cacheNames.map` has all called by then. -/
def deleteOldCaches (env : Env) (cacheNames : List String) : Promise Unit :=
  Promise.all (cacheNames.map (deleteIfOld env))

/-- The activate listener: the settlement of the promise given to
`event.waitUntil`, and the world afterwards.  The body of the listener runs
first: it prints, calls `caches.keys()`, and calls `self.clients.claim()`
(line 57).  Only then does the promise of `caches.keys()` resolve, with the
names of the existing caches, and its callback run. -/
def activateHandler (env : Env) (w : World) : Settled Unit × World :=
  let w1 := ((w.print ⟨"log", "[Service Worker] Activating...", none⟩).call
    Op.cachesKeys).call Op.clientsClaim
  deleteOldCaches env (cacheNames w1.storage) w1

/-! ## The fetch listener (lines 61-126) -/

/-- The response built when a same-origin fetch fails (lines 117-123). -/
def offlineResponse : Response :=
  ⟨503, "Service Unavailable", "default", [("Content-Type", "text/plain")],
    "Offline - Please check your internet connection"⟩

/-- The promise given to `event.respondWith` for a cross-origin font or image
(lines 68-82). -/
def crossOriginWork (env : Env) (request : Request) : Promise Response :=
  Promise.thenDo (cachesMatch request.url) (fun response =>
    match response with
    | some cached => Promise.resolve cached
    | none =>
      Promise.thenDo (fetch env request.url) (fun response =>
        if response.status = 200 then
          Promise.thenDo
            (Promise.detach
              (Promise.thenDo (cachesOpen env RUNTIME_CACHE) (fun cache =>
                Promise.detach (cachePut env cache request.url response))))
            (fun _ => Promise.resolve response)
        else Promise.resolve response))

/-- The promise given to `event.respondWith` for a same-origin request
(lines 89-125). -/
def sameOriginWork (env : Env) (request : Request) : Promise Response :=
  Promise.thenDo (cachesMatch request.url) (fun response =>
    match response with
    | some cached =>
      logThen ⟨"log", "[Service Worker] Serving from cache:", some request.url⟩
        (Promise.resolve cached)
    | none =>
      Promise.catchDo
        (Promise.thenDo (fetch env request.url) (fun response =>
          if response.status ≠ 200 ∨ response.type ≠ "basic" then Promise.resolve response
          else
            Promise.thenDo
              (Promise.detach
                (Promise.thenDo (cachesOpen env CACHE_NAME) (fun cache =>
                  Promise.detach (cachePut env cache request.url response))))
              (fun _ => Promise.resolve response)))
        (fun error =>
          logThen ⟨"error", "[Service Worker] Fetch failed:", some error⟩
            (Promise.resolve offlineResponse)))

/-- The fetch listener: the settlement of the promise given to
`event.respondWith` (`none` when `respondWith` is not called, so that the
browser handles the request itself), and the world afterwards. -/
def fetchHandler (env : Env) (request : Request) (w : World) :
    Option (Settled Response) × World :=
  if request.origin ≠ env.locationOrigin then
    if request.destination = "font" ∨ request.destination = "image" then
      let r := crossOriginWork env request w
      (some r.1, r.2)
    else (none, w)
  else
    let r := sameOriginWork env request w
    (some r.1, r.2)

/-- Whether `cache.addAll` can take the url: its fetch succeeds with a response
that can be added. -/
def Env.fetchedOk (env : Env) (url : String) : Bool :=
  match env.net url with
  | Except.ok r => r.addable
  | Except.error _ => false

/-- The storage after `caches.open(name)` and `cache.put(key, r)` on the
opened cache have both gone through. -/
def storedInto (S : CacheStorage) (name key : String) (r : Response) : CacheStorage :=
  modifyCache (ensureCache S name) name (fun c => cachePutEntry c key r)

/-! ## Sample worlds -/

/-- A plain 200 response of a given type. -/
def okResponse (type : String) (body : String) : Response :=
  ⟨200, "OK", type, [], body⟩

/-- The empty world: no cache, nothing called, nothing printed. -/
def emptyWorld : World := ⟨[], [], []⟩

/-- A browser that is offline, with working cache storage. -/
def envOffline : Env :=
  ⟨"https://home.example", fun _ => Except.error "offline", fun _ => none, fun _ => none,
    fun _ _ => none⟩

/-- A browser in which every fetch answers 200 and cache storage works. -/
def envOnline : Env :=
  ⟨"https://home.example", fun u => Except.ok (okResponse "basic" u), fun _ => none,
    fun _ => none, fun _ _ => none⟩

/-- A browser in which the fetch of `/index.html` fails and every other fetch
answers 200. -/
def envSeedDown : Env :=
  ⟨"https://home.example",
    fun u => if u = "/index.html" then Except.error "offline"
      else Except.ok (okResponse "basic" u),
    fun _ => none, fun _ => none, fun _ _ => none⟩

/-- A browser in which the fetch of the logo (the second external resource)
fails and every other fetch answers 200. -/
def envLogoDown : Env :=
  ⟨"https://home.example",
    fun u => if u = "https://brave.com/static-assets/images/brave-logo.svg"
      then Except.error "offline" else Except.ok (okResponse "cors" u),
    fun _ => none, fun _ => none, fun _ _ => none⟩

/-- A browser in which deleting the cache `homepage-pwa-v1` fails. -/
def envDeleteFails : Env :=
  ⟨"https://home.example", fun u => Except.ok (okResponse "basic" u), fun _ => none,
    fun n => if n = "homepage-pwa-v1" then some "delete failed" else none,
    fun _ _ => none⟩

/-- A 200 response of a given type that carries `Vary: *`. -/
def varyResponse (type : String) (body : String) : Response :=
  ⟨200, "OK", type, [("Vary", "*")], body⟩

/-- A browser in which every fetch answers 200 with `Vary: *`, a response that
`cache.put` rejects; cache storage works otherwise. -/
def envVaryBasic : Env :=
  ⟨"https://home.example", fun u => Except.ok (varyResponse "basic" u), fun _ => none,
    fun _ => none,
    fun _ r => if ("Vary", "*") ∈ r.headers then some "TypeError" else none⟩

/-- The same browser, answering with responses of type `cors`. -/
def envVaryCors : Env :=
  ⟨"https://home.example", fun u => Except.ok (varyResponse "cors" u), fun _ => none,
    fun _ => none,
    fun _ r => if ("Vary", "*") ∈ r.headers then some "TypeError" else none⟩

/-- A world with two caches of the previous version and the current shell
cache. -/
def worldAfterUpgrade : World :=
  ⟨[("homepage-pwa-v1", []), ("runtime-cache-v1", []), (CACHE_NAME, [])], [], []⟩

/-- A same-origin request. -/
def appRequest : Request :=
  ⟨"https://home.example/app.js", "https://home.example", "script"⟩

/-- A cross-origin script request. -/
def scriptRequest : Request :=
  ⟨"https://cdn.example/lib.js", "https://cdn.example", "script"⟩

/-- A cross-origin font request. -/
def fontRequest : Request :=
  ⟨"https://cdn.example/inter.woff2", "https://cdn.example", "font"⟩

/-- A world whose shell cache holds a response for `appRequest`. -/
def worldWithApp : World :=
  ⟨[(CACHE_NAME, [("https://home.example/app.js", okResponse "basic" "cached copy")])],
    [], []⟩

/-- A world whose runtime cache holds a response for `fontRequest`. -/
def worldWithFont : World :=
  ⟨[(RUNTIME_CACHE, [("https://cdn.example/inter.woff2", okResponse "cors" "cached font")])],
    [], []⟩

/-! ## Lemmas on caches -/

theorem mem_cacheKeys_iff (c : Cache) (key : String) :
    key ∈ cacheKeys c ↔ ∃ r, cacheMatch c key = some r := by
  induction c with
  | nil => simp [cacheKeys, cacheMatch]
  | cons e rest ih =>
    obtain ⟨k, r⟩ := e
    by_cases h : k = key
    · simp [cacheKeys, cacheMatch, h]
    · have ih1 : key ∈ List.map Prod.fst rest ↔ ∃ r, cacheMatch rest key = some r := ih
      have h1 : ¬ key = k := fun h2 => h h2.symm
      simp [cacheKeys, cacheMatch, h, h1, ih1]

theorem cacheMatch_mem (c : Cache) (key : String) (r : Response)
    (h : cacheMatch c key = some r) : (key, r) ∈ c := by
  induction c with
  | nil => simp [cacheMatch] at h
  | cons e rest ih =>
    obtain ⟨k, r1⟩ := e
    by_cases hk : k = key
    · simp [cacheMatch, hk] at h
      simp [hk, h]
    · simp [cacheMatch, hk] at h
      exact List.mem_cons_of_mem _ (ih h)

theorem storageMatch_mem (S : CacheStorage) (key : String) (r : Response)
    (h : storageMatch S key = some r) : ∃ p ∈ S, cacheMatch p.2 key = some r := by
  induction S with
  | nil => simp [storageMatch] at h
  | cons p rest ih =>
    obtain ⟨n, c⟩ := p
    cases hc : cacheMatch c key with
    | some r1 =>
      simp [storageMatch, hc] at h
      exact ⟨(n, c), by simp, by simp [hc, h]⟩
    | none =>
      simp [storageMatch, hc] at h
      obtain ⟨q, hq, hm⟩ := ih h
      exact ⟨q, List.mem_cons_of_mem _ hq, hm⟩

theorem storageMatch_of_mem (S : CacheStorage) (key : String) (p : String × Cache)
    (hp : p ∈ S) (r : Response) (h : cacheMatch p.2 key = some r) :
    ∃ r1, storageMatch S key = some r1 := by
  induction S with
  | nil => simp at hp
  | cons q rest ih =>
    obtain ⟨n, c⟩ := q
    cases hc : cacheMatch c key with
    | some r1 => exact ⟨r1, by simp [storageMatch, hc]⟩
    | none =>
      rcases List.mem_cons.mp hp with h1 | h1
      · subst h1
        simp [hc] at h
      · obtain ⟨r1, hr1⟩ := ih h1
        exact ⟨r1, by simp [storageMatch, hc, hr1]⟩

theorem cacheOf_mem_or_nil (S : CacheStorage) (name : String) :
    (name, cacheOf S name) ∈ S ∨ cacheOf S name = [] := by
  induction S with
  | nil => simp [cacheOf]
  | cons q rest ih =>
    obtain ⟨n, c⟩ := q
    by_cases h : n = name
    · simp [cacheOf, h]
    · rcases ih with h1 | h1
      · left
        simp [cacheOf, h, h1]
      · right
        simp [cacheOf, h, h1]

/-- A key held by the cache of some name is found by `caches.match`. -/
theorem storageMatch_of_key (S : CacheStorage) (name key : String)
    (h : key ∈ cacheKeys (cacheOf S name)) : ∃ r, storageMatch S key = some r := by
  obtain ⟨r, hr⟩ := (mem_cacheKeys_iff _ _).mp h
  rcases cacheOf_mem_or_nil S name with h1 | h1
  · exact storageMatch_of_mem S key _ h1 r hr
  · rw [h1] at hr
    simp [cacheMatch] at hr

theorem cacheMatch_append_self (c : Cache) (key : String) (r : Response)
    (h : cacheMatch c key = none) : cacheMatch (c ++ [(key, r)]) key = some r := by
  induction c with
  | nil => simp [cacheMatch]
  | cons e rest ih =>
    obtain ⟨k, r1⟩ := e
    by_cases hk : k = key
    · simp [cacheMatch, hk] at h
    · simp [cacheMatch, hk] at h
      simp [cacheMatch, hk, ih h]

theorem cacheMatch_filter_ne (c : Cache) (key : String) :
    cacheMatch (c.filter (fun e => decide (e.1 ≠ key))) key = none := by
  induction c with
  | nil => simp [cacheMatch]
  | cons e rest ih =>
    obtain ⟨k, r1⟩ := e
    by_cases hk : k = key
    · simp [List.filter, hk]
      simpa using ih
    · simp [List.filter, hk, cacheMatch]
      simpa using ih

/-- After `cache.put(key, r)` the cache answers `key` with `r`. -/
theorem cacheMatch_cachePutEntry (c : Cache) (key : String) (r : Response) :
    cacheMatch (cachePutEntry c key r) key = some r :=
  cacheMatch_append_self _ _ _ (cacheMatch_filter_ne c key)

theorem cacheOf_append_new (S : CacheStorage) (name other : String) (c : Cache)
    (h : cachesHas S name = false ∨ name ≠ other) (hc : name = other → c = []) :
    cacheOf (S ++ [(name, c)]) other = cacheOf S other := by
  induction S with
  | nil =>
    by_cases hn : name = other
    · simp [cacheOf, hn, hc hn]
    · simp [cacheOf, hn]
  | cons q rest ih =>
    obtain ⟨n, c1⟩ := q
    by_cases h1 : n = other
    · simp [cacheOf, h1]
    · have h2 : cachesHas rest name = false ∨ name ≠ other := by
        rcases h with h | h
        · left
          simp [cachesHas] at h
          simp [cachesHas]
          exact h.2
        · exact Or.inr h
      simp [cacheOf, h1, ih h2]

/-- Opening a cache changes the contents of no cache. -/
theorem cacheOf_ensureCache (S : CacheStorage) (name other : String) :
    cacheOf (ensureCache S name) other = cacheOf S other := by
  unfold ensureCache
  cases h : cachesHas S name with
  | true => simp
  | false =>
    simp
    exact cacheOf_append_new S name other [] (Or.inl h) (fun _ => rfl)

theorem cachesHas_ensureCache (S : CacheStorage) (name : String) :
    cachesHas (ensureCache S name) name = true := by
  unfold ensureCache
  cases h : cachesHas S name with
  | true => simp [h]
  | false => simp [cachesHas]

theorem cacheOf_modifyCache_same (S : CacheStorage) (name : String) (f : Cache → Cache)
    (h : cachesHas S name = true) :
    cacheOf (modifyCache S name f) name = f (cacheOf S name) := by
  induction S with
  | nil => simp [cachesHas] at h
  | cons q rest ih =>
    obtain ⟨n, c⟩ := q
    by_cases h1 : n = name
    · simp [modifyCache, cacheOf, h1]
    · have h2 : cachesHas rest name = true := by
        simp [cachesHas, h1] at h
        simpa [cachesHas] using h
      simp [modifyCache, cacheOf, h1, ih h2]

theorem cacheOf_modifyCache_other (S : CacheStorage) (name other : String)
    (f : Cache → Cache) (h : other ≠ name) :
    cacheOf (modifyCache S name f) other = cacheOf S other := by
  induction S with
  | nil => simp [modifyCache, cacheOf]
  | cons q rest ih =>
    obtain ⟨n, c⟩ := q
    by_cases h3 : n = other
    · subst h3
      simp [modifyCache, cacheOf, h]
    · simp [modifyCache, cacheOf, h3, ih]

/-- A write that went through is found in the cache it was written to. -/
theorem cacheMatch_storedInto (S : CacheStorage) (name key : String) (r : Response) :
    cacheMatch (cacheOf (storedInto S name key r) name) key = some r := by
  unfold storedInto
  rw [cacheOf_modifyCache_same _ _ _ (cachesHas_ensureCache S name)]
  exact cacheMatch_cachePutEntry _ _ _

/-- A write that went through leaves every other cache as it was. -/
theorem cacheOf_storedInto_other (S : CacheStorage) (name other key : String) (r : Response)
    (h : other ≠ name) : cacheOf (storedInto S name key r) other = cacheOf S other := by
  unfold storedInto
  rw [cacheOf_modifyCache_other _ _ _ _ h, cacheOf_ensureCache]

/-! ## Lemmas on `cache.addAll` -/

theorem fetchAll_error_of_failed (env : Env) (urls : List String)
    (h : ∃ u ∈ urls, env.fetchedOk u = false) : ∃ e, fetchAll env urls = Except.error e := by
  induction urls with
  | nil => simp at h
  | cons u us ih =>
    cases hn : env.net u with
    | error e => exact ⟨e, by simp [fetchAll, hn]⟩
    | ok r =>
      by_cases ha : r.addable = true
      · have h1 : ∃ v ∈ us, env.fetchedOk v = false := by
          obtain ⟨v, hv, hf⟩ := h
          rcases List.mem_cons.mp hv with h2 | h2
          · subst h2
            simp [Env.fetchedOk, hn, ha] at hf
          · exact ⟨v, h2, hf⟩
        obtain ⟨e, he⟩ := ih h1
        exact ⟨e, by simp [fetchAll, hn, ha, he]⟩
      · exact ⟨"TypeError", by simp [fetchAll, hn, ha]⟩

theorem fetchAll_ok_of_all (env : Env) (urls : List String)
    (h : ∀ u ∈ urls, env.fetchedOk u = true) :
    ∃ entries, fetchAll env urls = Except.ok entries ∧ entries.map Prod.fst = urls := by
  induction urls with
  | nil => exact ⟨[], by simp [fetchAll]⟩
  | cons u us ih =>
    obtain ⟨rest, hrest, hkeys⟩ := ih (fun v hv => h v (List.mem_cons_of_mem _ hv))
    have hu := h u (List.mem_cons_self _ _)
    cases hn : env.net u with
    | error e => simp [Env.fetchedOk, hn] at hu
    | ok r =>
      have ha : r.addable = true := by simpa [Env.fetchedOk, hn] using hu
      exact ⟨(u, r) :: rest, by simp [fetchAll, hn, ha, hrest], by simp [hkeys]⟩

theorem cacheKeys_cachePutEntry (c : Cache) (key : String) (r : Response) :
    cacheKeys (cachePutEntry c key r) =
      (cacheKeys c).filter (fun k => decide (k ≠ key)) ++ [key] := by
  simp only [cacheKeys, cachePutEntry, List.map_append, List.map_cons, List.map_nil,
    List.filter_map]
  rfl

/-- The keys of a cache after a batch of puts with distinct keys: the old keys
that are not overwritten, then the new keys in the order of the batch. -/
theorem cacheKeys_foldl_put (entries : List (String × Response)) (c : Cache)
    (hNodup : (entries.map Prod.fst).Nodup) :
    cacheKeys (entries.foldl (fun acc e => cachePutEntry acc e.1 e.2) c) =
      (cacheKeys c).filter (fun k => decide (k ∉ entries.map Prod.fst))
        ++ entries.map Prod.fst := by
  induction entries generalizing c with
  | nil => simp
  | cons e es ih =>
    have hnd := List.nodup_cons.mp hNodup
    have he : e.1 ∉ es.map Prod.fst := hnd.1
    rw [List.foldl_cons, ih _ hnd.2, cacheKeys_cachePutEntry, List.filter_append,
      List.filter_filter]
    have h1 : List.filter (fun k => decide (k ∉ es.map Prod.fst)) [e.1] = [e.1] := by
      simp [List.filter, he]
    rw [h1]
    simp only [List.map_cons, List.append_assoc, List.singleton_append]
    congr 1
    apply List.filter_congr
    intro k _
    by_cases hk : k = e.1 <;> by_cases hm : k ∈ es.map Prod.fst <;> simp [hk, hm]

/-! ## Lemmas on promises -/

theorem Promise.all_pair_world (p q : Promise Unit) (w : World) :
    (Promise.all [p, q] w).2 = (q (p w).2).2 := by
  simp only [Promise.all, Promise.resolve]
  rcases hp : p w with ⟨sp, w1⟩
  cases sp with
  | resolved a =>
    simp only
    rcases hq : q w1 with ⟨sq, w2⟩
    cases sq <;> rfl
  | rejected e =>
    simp only
    rcases hq : q w1 with ⟨sq, w2⟩
    cases sq <;> rfl

theorem Promise.all_pair_rejected (p q : Promise Unit) (w : World) (e : String)
    (h : (p w).1 = Settled.rejected e) : (Promise.all [p, q] w).1 = Settled.rejected e := by
  simp only [Promise.all]
  rcases hp : p w with ⟨sp, w1⟩
  rw [hp] at h
  simp only at h
  subst h
  rfl

/-! ## The fetch listener -/

/-- C5: a cross-origin request whose destination is neither font nor image is
left to the browser: `respondWith` is not called, nothing is called on cache
storage or the network, and the world (every cache included) is unchanged. -/
theorem fetch_crossOrigin_passThrough (env : Env) (request : Request) (w : World)
    (hOrigin : request.origin ≠ env.locationOrigin)
    (hFont : request.destination ≠ "font") (hImage : request.destination ≠ "image") :
    fetchHandler env request w = (none, w) := by
  simp [fetchHandler, hOrigin, hFont, hImage]

/-- C3: a same-origin request that misses the caches and whose fetch fails is
answered with the offline response: status 503, status text
"Service Unavailable", the one header Content-Type: text/plain, and the body
"Offline - Please check your internet connection". -/
theorem fetch_sameOrigin_offline (env : Env) (request : Request) (w : World) (e : String)
    (hOrigin : request.origin = env.locationOrigin)
    (hMiss : storageMatch w.storage request.url = none)
    (hNet : env.net request.url = Except.error e) :
    ∃ r, (fetchHandler env request w).1 = some (Settled.resolved r) ∧
      r.status = 503 ∧ r.statusText = "Service Unavailable" ∧
      r.headers = [("Content-Type", "text/plain")] ∧
      r.body = "Offline - Please check your internet connection" := by
  refine ⟨offlineResponse, ?_, rfl, rfl, rfl, rfl⟩
  simp [fetchHandler, hOrigin, sameOriginWork, Promise.thenDo, Promise.catchDo, cachesMatch,
    World.call, hMiss, fetch, hNet, logThen, Promise.resolve]

/-- C4: a same-origin request whose url is a key of the shell cache or of the
runtime cache is answered from cache storage: the response is the one
`caches.match` finds, it is stored under that url in a cache of the storage,
the only call made is `caches.match` (no fetch, no put), and the storage is
unchanged. -/
theorem fetch_sameOrigin_cacheHit (env : Env) (request : Request) (w : World)
    (hOrigin : request.origin = env.locationOrigin)
    (hKey : request.url ∈ cacheKeys (cacheOf w.storage CACHE_NAME) ∨
      request.url ∈ cacheKeys (cacheOf w.storage RUNTIME_CACHE)) :
    ∃ r, (fetchHandler env request w).1 = some (Settled.resolved r) ∧
      storageMatch w.storage request.url = some r ∧
      (∃ p ∈ w.storage, (request.url, r) ∈ p.2) ∧
      (fetchHandler env request w).2.ops = w.ops ++ [Op.cachesMatch request.url] ∧
      (fetchHandler env request w).2.storage = w.storage := by
  have hHit : ∃ r, storageMatch w.storage request.url = some r := by
    rcases hKey with h | h
    · exact storageMatch_of_key _ _ _ h
    · exact storageMatch_of_key _ _ _ h
  obtain ⟨r, hr⟩ := hHit
  obtain ⟨p, hp, hm⟩ := storageMatch_mem _ _ _ hr
  refine ⟨r, ?_, hr, ⟨p, hp, cacheMatch_mem _ _ _ hm⟩, ?_, ?_⟩ <;>
    simp [fetchHandler, hOrigin, sameOriginWork, Promise.thenDo, cachesMatch, World.call, hr,
      logThen, Promise.resolve, World.print]

/-- C9: a cross-origin font or image request that misses the caches and whose
fetch fails: the promise given to `respondWith` rejects with the error of the
fetch (no response is built), the calls made are `caches.match` and `fetch`
(no open, no put), and the storage is unchanged. -/
theorem fetch_crossOrigin_failure (env : Env) (request : Request) (w : World) (e : String)
    (hOrigin : request.origin ≠ env.locationOrigin)
    (hDest : request.destination = "font" ∨ request.destination = "image")
    (hMiss : storageMatch w.storage request.url = none)
    (hNet : env.net request.url = Except.error e) :
    (fetchHandler env request w).1 = some (Settled.rejected e) ∧
      (fetchHandler env request w).2.ops =
        w.ops ++ [Op.cachesMatch request.url, Op.fetch request.url] ∧
      (fetchHandler env request w).2.storage = w.storage ∧
      (fetchHandler env request w).2.console = w.console := by
  simp [fetchHandler, hOrigin, hDest, crossOriginWork, Promise.thenDo, cachesMatch, World.call,
    hMiss, fetch, hNet]

theorem sameOrigin_miss_world (env : Env) (request : Request) (w : World) (r : Response)
    (hOrigin : request.origin = env.locationOrigin)
    (hMiss : storageMatch w.storage request.url = none)
    (hNet : env.net request.url = Except.ok r)
    (hs : r.status = 200) (ht : r.type = "basic") :
    (fetchHandler env request w).2.ops =
        w.ops ++ [Op.cachesMatch request.url, Op.fetch request.url,
          Op.cachesOpen CACHE_NAME] ++
          (if env.openError CACHE_NAME = none then [Op.cachePut CACHE_NAME request.url r]
            else []) ∧
      (fetchHandler env request w).2.storage =
        (if env.openError CACHE_NAME = none then
          (if env.putError request.url r = none then
            storedInto w.storage CACHE_NAME request.url r
          else ensureCache w.storage CACHE_NAME)
        else w.storage) := by
  cases hOpen : env.openError CACHE_NAME with
  | some e =>
    simp [fetchHandler, hOrigin, sameOriginWork, Promise.thenDo, Promise.catchDo,
      cachesMatch, World.call, hMiss, fetch, hNet, Promise.resolve, Promise.detach, hs, ht,
      cachesOpen, hOpen]
  | none =>
    cases hPut : env.putError request.url r with
    | some e =>
      simp [fetchHandler, hOrigin, sameOriginWork, Promise.thenDo, Promise.catchDo,
        cachesMatch, World.call, hMiss, fetch, hNet, Promise.resolve, Promise.detach, hs, ht,
        cachesOpen, hOpen, cachePut, hPut]
    | none =>
      simp [fetchHandler, hOrigin, sameOriginWork, Promise.thenDo, Promise.catchDo,
        cachesMatch, World.call, hMiss, fetch, hNet, Promise.resolve, Promise.detach, hs, ht,
        cachesOpen, hOpen, cachePut, hPut, storedInto]

theorem crossOrigin_miss_world (env : Env) (request : Request) (w : World) (r : Response)
    (hOrigin : request.origin ≠ env.locationOrigin)
    (hDest : request.destination = "font" ∨ request.destination = "image")
    (hMiss : storageMatch w.storage request.url = none)
    (hNet : env.net request.url = Except.ok r)
    (hs : r.status = 200) :
    (fetchHandler env request w).2.ops =
        w.ops ++ [Op.cachesMatch request.url, Op.fetch request.url,
          Op.cachesOpen RUNTIME_CACHE] ++
          (if env.openError RUNTIME_CACHE = none then
            [Op.cachePut RUNTIME_CACHE request.url r] else []) ∧
      (fetchHandler env request w).2.storage =
        (if env.openError RUNTIME_CACHE = none then
          (if env.putError request.url r = none then
            storedInto w.storage RUNTIME_CACHE request.url r
          else ensureCache w.storage RUNTIME_CACHE)
        else w.storage) := by
  cases hOpen : env.openError RUNTIME_CACHE with
  | some e =>
    simp [fetchHandler, hOrigin, hDest, crossOriginWork, Promise.thenDo, cachesMatch,
      World.call, hMiss, fetch, hNet, Promise.resolve, Promise.detach, hs, cachesOpen, hOpen]
  | none =>
    cases hPut : env.putError request.url r with
    | some e =>
      simp [fetchHandler, hOrigin, hDest, crossOriginWork, Promise.thenDo, cachesMatch,
        World.call, hMiss, fetch, hNet, Promise.resolve, Promise.detach, hs, cachesOpen,
        hOpen, cachePut, hPut]
    | none =>
      simp [fetchHandler, hOrigin, hDest, crossOriginWork, Promise.thenDo, cachesMatch,
        World.call, hMiss, fetch, hNet, Promise.resolve, Promise.detach, hs, cachesOpen,
        hOpen, cachePut, hPut, storedInto]

/-- C7 (as amended): a same-origin request that misses the caches and whose
fetch succeeds with `r` is answered with `r` in every case.  The write to the
shell cache is started exactly when `r.status` is 200 and `r.type` is basic:
then `caches.open(CACHE_NAME)` is called and, once it has opened,
`cache.put` of `r` under the url.  `r` is stored there when neither the open
nor the put is rejected; when one of them is rejected the contents of every
cache stay as they were.  No other cache is ever written, and when the
status is not 200 or the type not basic the calls are `caches.match` and
`fetch` alone and the storage is unchanged. -/
theorem fetch_sameOrigin_miss (env : Env) (request : Request) (w : World) (r : Response)
    (hOrigin : request.origin = env.locationOrigin)
    (hMiss : storageMatch w.storage request.url = none)
    (hNet : env.net request.url = Except.ok r) :
    (fetchHandler env request w).1 = some (Settled.resolved r) ∧
    (r.status = 200 ∧ r.type = "basic" →
      (fetchHandler env request w).2.ops =
        w.ops ++ [Op.cachesMatch request.url, Op.fetch request.url,
          Op.cachesOpen CACHE_NAME] ++
          (if env.openError CACHE_NAME = none then [Op.cachePut CACHE_NAME request.url r]
            else [])) ∧
    (r.status = 200 ∧ r.type = "basic" →
      env.openError CACHE_NAME = none → env.putError request.url r = none →
        (fetchHandler env request w).2.storage =
            storedInto w.storage CACHE_NAME request.url r ∧
          cacheMatch (cacheOf (fetchHandler env request w).2.storage CACHE_NAME) request.url
            = some r) ∧
    (r.status = 200 ∧ r.type = "basic" →
      (env.openError CACHE_NAME ≠ none ∨ env.putError request.url r ≠ none) →
        ∀ name, cacheOf (fetchHandler env request w).2.storage name
          = cacheOf w.storage name) ∧
    (¬ (r.status = 200 ∧ r.type = "basic") →
      (fetchHandler env request w).2.ops =
          w.ops ++ [Op.cachesMatch request.url, Op.fetch request.url] ∧
        (fetchHandler env request w).2.storage = w.storage) ∧
    (∀ other, other ≠ CACHE_NAME →
      cacheOf (fetchHandler env request w).2.storage other = cacheOf w.storage other) := by
  have hNo : ¬ (r.status = 200 ∧ r.type = "basic") →
      (fetchHandler env request w).2.ops =
          w.ops ++ [Op.cachesMatch request.url, Op.fetch request.url] ∧
        (fetchHandler env request w).2.storage = w.storage := by
    intro hc
    have hc1 : r.status = 200 → ¬ r.type = "basic" := fun h1 h2 => hc ⟨h1, h2⟩
    by_cases hs : r.status = 200
    · simp [fetchHandler, hOrigin, sameOriginWork, Promise.thenDo, Promise.catchDo,
        cachesMatch, World.call, hMiss, fetch, hNet, Promise.resolve, hs, hc1 hs]
    · simp [fetchHandler, hOrigin, sameOriginWork, Promise.thenDo, Promise.catchDo,
        cachesMatch, World.call, hMiss, fetch, hNet, Promise.resolve, hs]
  have hFrame : ∀ hc : r.status = 200 ∧ r.type = "basic",
      (env.openError CACHE_NAME ≠ none ∨ env.putError request.url r ≠ none) →
        ∀ name, cacheOf (fetchHandler env request w).2.storage name
          = cacheOf w.storage name := by
    intro hc hFail name
    rw [(sameOrigin_miss_world env request w r hOrigin hMiss hNet hc.1 hc.2).2]
    by_cases hOpen : env.openError CACHE_NAME = none
    · have hPut : env.putError request.url r ≠ none := by
        rcases hFail with h | h
        · exact absurd hOpen h
        · exact h
      rw [if_pos hOpen, if_neg hPut, cacheOf_ensureCache]
    · rw [if_neg hOpen]
  refine ⟨?_, ?_, ?_, hFrame, hNo, ?_⟩
  · by_cases hc : r.status = 200 ∧ r.type = "basic"
    · simp [fetchHandler, hOrigin, sameOriginWork, Promise.thenDo, Promise.catchDo,
        cachesMatch, World.call, hMiss, fetch, hNet, Promise.resolve, Promise.detach, hc.1, hc.2]
    · have hc1 : r.status = 200 → ¬ r.type = "basic" := fun h1 h2 => hc ⟨h1, h2⟩
      by_cases hs : r.status = 200
      · simp [fetchHandler, hOrigin, sameOriginWork, Promise.thenDo, Promise.catchDo,
          cachesMatch, World.call, hMiss, fetch, hNet, Promise.resolve, hs, hc1 hs]
      · simp [fetchHandler, hOrigin, sameOriginWork, Promise.thenDo, Promise.catchDo,
          cachesMatch, World.call, hMiss, fetch, hNet, Promise.resolve, hs]
  · intro hc
    exact (sameOrigin_miss_world env request w r hOrigin hMiss hNet hc.1 hc.2).1
  · intro hc hOpen hPut
    have hst : (fetchHandler env request w).2.storage =
        storedInto w.storage CACHE_NAME request.url r := by
      rw [(sameOrigin_miss_world env request w r hOrigin hMiss hNet hc.1 hc.2).2,
        if_pos hOpen, if_pos hPut]
    refine ⟨hst, ?_⟩
    rw [hst]
    exact cacheMatch_storedInto _ _ _ _
  · intro other hOther
    by_cases hc : r.status = 200 ∧ r.type = "basic"
    · by_cases hOk : env.openError CACHE_NAME = none ∧ env.putError request.url r = none
      · rw [(sameOrigin_miss_world env request w r hOrigin hMiss hNet hc.1 hc.2).2,
          if_pos hOk.1, if_pos hOk.2]
        exact cacheOf_storedInto_other _ _ _ _ _ hOther
      · apply hFrame hc
        by_cases hOpen : env.openError CACHE_NAME = none
        · exact Or.inr (fun hPut => hOk ⟨hOpen, hPut⟩)
        · exact Or.inl hOpen
    · rw [(hNo hc).2]

/-- C8 (as amended): a cross-origin font or image request.  On a cache hit
the response is the cached one and the only call made is `caches.match` (no
fetch).  On a miss whose fetch succeeds with `r`, the answer is `r`.  The
write to the runtime cache is started exactly when `r.status` is 200: then
`caches.open(RUNTIME_CACHE)` is called and, once it has opened, `cache.put`
of `r` under the url.  `r` is stored there when neither the open nor the put
is rejected; when one of them is rejected the contents of every cache stay as
they were.  The shell cache is never written. -/
theorem fetch_crossOrigin_cacheable (env : Env) (request : Request) (w : World)
    (hOrigin : request.origin ≠ env.locationOrigin)
    (hDest : request.destination = "font" ∨ request.destination = "image") :
    (∀ cached, storageMatch w.storage request.url = some cached →
      fetchHandler env request w =
        (some (Settled.resolved cached), w.call (Op.cachesMatch request.url))) ∧
    (∀ r, storageMatch w.storage request.url = none → env.net request.url = Except.ok r →
      (fetchHandler env request w).1 = some (Settled.resolved r) ∧
      cacheOf (fetchHandler env request w).2.storage CACHE_NAME
        = cacheOf w.storage CACHE_NAME ∧
      (r.status = 200 →
        (fetchHandler env request w).2.ops =
          w.ops ++ [Op.cachesMatch request.url, Op.fetch request.url,
            Op.cachesOpen RUNTIME_CACHE] ++
            (if env.openError RUNTIME_CACHE = none then
              [Op.cachePut RUNTIME_CACHE request.url r] else [])) ∧
      (r.status = 200 →
        env.openError RUNTIME_CACHE = none → env.putError request.url r = none →
          (fetchHandler env request w).2.storage =
              storedInto w.storage RUNTIME_CACHE request.url r ∧
            cacheMatch (cacheOf (fetchHandler env request w).2.storage RUNTIME_CACHE)
              request.url = some r) ∧
      (r.status = 200 →
        (env.openError RUNTIME_CACHE ≠ none ∨ env.putError request.url r ≠ none) →
          ∀ name, cacheOf (fetchHandler env request w).2.storage name
            = cacheOf w.storage name) ∧
      (r.status ≠ 200 →
        (fetchHandler env request w).2.ops =
            w.ops ++ [Op.cachesMatch request.url, Op.fetch request.url] ∧
          (fetchHandler env request w).2.storage = w.storage)) := by
  constructor
  · intro cached hHit
    simp [fetchHandler, hOrigin, hDest, crossOriginWork, Promise.thenDo, cachesMatch, hHit,
      Promise.resolve]
  · intro r hMiss hNet
    have hNe : CACHE_NAME ≠ RUNTIME_CACHE := by decide
    have hNo : r.status ≠ 200 →
        (fetchHandler env request w).2.ops =
            w.ops ++ [Op.cachesMatch request.url, Op.fetch request.url] ∧
          (fetchHandler env request w).2.storage = w.storage := by
      intro hs
      simp [fetchHandler, hOrigin, hDest, crossOriginWork, Promise.thenDo, cachesMatch,
        World.call, hMiss, fetch, hNet, Promise.resolve, hs]
    have hFrame : r.status = 200 →
        (env.openError RUNTIME_CACHE ≠ none ∨ env.putError request.url r ≠ none) →
          ∀ name, cacheOf (fetchHandler env request w).2.storage name
            = cacheOf w.storage name := by
      intro hs hFail name
      rw [(crossOrigin_miss_world env request w r hOrigin hDest hMiss hNet hs).2]
      by_cases hOpen : env.openError RUNTIME_CACHE = none
      · have hPut : env.putError request.url r ≠ none := by
          rcases hFail with h | h
          · exact absurd hOpen h
          · exact h
        rw [if_pos hOpen, if_neg hPut, cacheOf_ensureCache]
      · rw [if_neg hOpen]
    refine ⟨?_, ?_, ?_, ?_, hFrame, hNo⟩
    · by_cases hs : r.status = 200
      · simp [fetchHandler, hOrigin, hDest, crossOriginWork, Promise.thenDo, cachesMatch,
          World.call, hMiss, fetch, hNet, Promise.resolve, Promise.detach, hs]
      · simp [fetchHandler, hOrigin, hDest, crossOriginWork, Promise.thenDo, cachesMatch,
          World.call, hMiss, fetch, hNet, Promise.resolve, hs]
    · by_cases hs : r.status = 200
      · by_cases hOk : env.openError RUNTIME_CACHE = none ∧ env.putError request.url r = none
        · rw [(crossOrigin_miss_world env request w r hOrigin hDest hMiss hNet hs).2,
            if_pos hOk.1, if_pos hOk.2]
          exact cacheOf_storedInto_other _ _ _ _ _ hNe
        · apply hFrame hs
          by_cases hOpen : env.openError RUNTIME_CACHE = none
          · exact Or.inr (fun hPut => hOk ⟨hOpen, hPut⟩)
          · exact Or.inl hOpen
      · rw [(hNo hs).2]
    · intro hs
      exact (crossOrigin_miss_world env request w r hOrigin hDest hMiss hNet hs).1
    · intro hs hOpen hPut
      have hst : (fetchHandler env request w).2.storage =
          storedInto w.storage RUNTIME_CACHE request.url r := by
        rw [(crossOrigin_miss_world env request w r hOrigin hDest hMiss hNet hs).2,
          if_pos hOpen, if_pos hPut]
      refine ⟨hst, ?_⟩
      rw [hst]
      exact cacheMatch_storedInto _ _ _ _

/-! ## The install listener -/

theorem installHandler_resolves (env : Env) (w : World) :
    (installHandler env w).1 = Settled.resolved () := by
  simp only [installHandler, installWork, Promise.catchDo]
  rcases h : Promise.all [installShellWork env, installRuntimeWork env]
      (w.print ⟨"log", "[Service Worker] Installing...", none⟩) with ⟨sp, w1⟩
  cases sp <;> rfl

theorem installHandler_storage (env : Env) (w : World) :
    (installHandler env w).2.storage =
      (installRuntimeWork env (installShellWork env
        (w.print ⟨"log", "[Service Worker] Installing...", none⟩)).2).2.storage := by
  rw [← Promise.all_pair_world]
  simp only [installHandler, installWork, Promise.catchDo]
  rcases h : Promise.all [installShellWork env, installRuntimeWork env]
      (w.print ⟨"log", "[Service Worker] Installing...", none⟩) with ⟨sp, w1⟩
  cases sp <;> rfl

theorem installShellWork_rejects (env : Env) (w : World)
    (hFail : env.openError CACHE_NAME ≠ none ∨ ∃ u ∈ urlsToCache, env.fetchedOk u = false) :
    ∃ e, (installShellWork env w).1 = Settled.rejected e := by
  cases hOpen : env.openError CACHE_NAME with
  | some e => exact ⟨e, by simp [installShellWork, Promise.thenDo, cachesOpen, hOpen]⟩
  | none =>
    rcases hFail with h | h
    · exact absurd hOpen h
    · obtain ⟨e, he⟩ := fetchAll_error_of_failed env urlsToCache h
      exact ⟨e, by simp [installShellWork, Promise.thenDo, cachesOpen, hOpen, logThen,
        cacheAddAll, he]⟩

theorem installShellWork_storage_other (env : Env) (w : World) (other : String)
    (h : other ≠ CACHE_NAME) :
    cacheOf (installShellWork env w).2.storage other = cacheOf w.storage other := by
  cases hOpen : env.openError CACHE_NAME with
  | some e => simp [installShellWork, Promise.thenDo, cachesOpen, hOpen, World.call]
  | none =>
    cases hf : fetchAll env urlsToCache with
    | error e =>
      simp [installShellWork, Promise.thenDo, cachesOpen, hOpen, logThen, cacheAddAll, hf,
        World.call, World.print, cacheOf_ensureCache]
    | ok entries =>
      simp [installShellWork, Promise.thenDo, cachesOpen, hOpen, logThen, cacheAddAll, hf,
        World.print, cacheOf_modifyCache_other _ _ _ _ h, cacheOf_ensureCache]

theorem installRuntimeWork_storage_other (env : Env) (w : World) (other : String)
    (h : other ≠ RUNTIME_CACHE) :
    cacheOf (installRuntimeWork env w).2.storage other = cacheOf w.storage other := by
  cases hOpen : env.openError RUNTIME_CACHE with
  | some e => simp [installRuntimeWork, Promise.thenDo, cachesOpen, hOpen, World.call]
  | none =>
    cases hf : fetchAll env externalResources with
    | error e =>
      simp [installRuntimeWork, Promise.thenDo, Promise.catchDo, cachesOpen, hOpen, logThen,
        cacheAddAll, hf, World.call, World.print, Promise.resolve, cacheOf_ensureCache]
    | ok entries =>
      simp [installRuntimeWork, Promise.thenDo, Promise.catchDo, cachesOpen, hOpen, logThen,
        cacheAddAll, hf, World.print, cacheOf_modifyCache_other _ _ _ _ h,
        cacheOf_ensureCache]

theorem installRuntimeWork_storage_failed (env : Env) (w : World) (name : String)
    (hFail : ∃ u ∈ externalResources, env.fetchedOk u = false) :
    cacheOf (installRuntimeWork env w).2.storage name = cacheOf w.storage name := by
  obtain ⟨e, hf⟩ := fetchAll_error_of_failed env externalResources hFail
  cases hOpen : env.openError RUNTIME_CACHE with
  | some e1 => simp [installRuntimeWork, Promise.thenDo, cachesOpen, hOpen, World.call]
  | none =>
    simp [installRuntimeWork, Promise.thenDo, Promise.catchDo, cachesOpen, hOpen, logThen,
      cacheAddAll, hf, World.call, World.print, Promise.resolve, cacheOf_ensureCache]

theorem installShellWork_keys (env : Env) (w : World)
    (hOpen : env.openError CACHE_NAME = none)
    (hSeeds : ∀ u ∈ urlsToCache, env.fetchedOk u = true)
    (hOld : ∀ k ∈ cacheKeys (cacheOf w.storage CACHE_NAME), k ∈ urlsToCache) :
    cacheKeys (cacheOf (installShellWork env w).2.storage CACHE_NAME) = urlsToCache := by
  obtain ⟨entries, hf, hkeys⟩ := fetchAll_ok_of_all env urlsToCache hSeeds
  have hNodup : (entries.map Prod.fst).Nodup := by
    rw [hkeys]
    decide
  have hst : (installShellWork env w).2.storage =
      modifyCache (ensureCache w.storage CACHE_NAME) CACHE_NAME
        (fun c => entries.foldl (fun acc e => cachePutEntry acc e.1 e.2) c) := by
    simp [installShellWork, Promise.thenDo, cachesOpen, hOpen, logThen, cacheAddAll, hf,
      World.print]
  rw [hst, cacheOf_modifyCache_same _ _ _ (cachesHas_ensureCache _ _), cacheOf_ensureCache,
    cacheKeys_foldl_put _ _ hNodup, hkeys]
  have hEmpty : (cacheKeys (cacheOf w.storage CACHE_NAME)).filter
      (fun k => decide (k ∉ urlsToCache)) = [] := by
    rw [List.filter_eq_nil_iff]
    intro k hk
    simp [hOld k hk]
  rw [hEmpty, List.nil_append]

/-- C1 (as amended): when opening the shell cache fails or a seed-list entry
cannot be cached, the shell member of `Promise.all` rejects, the rejection is
caught by the `catch` on `Promise.all` and printed with `console.error`, and
the promise given to `event.waitUntil` resolves: the install signal does not
fail. -/
theorem install_shell_failure_caught (env : Env) (w : World)
    (hFail : env.openError CACHE_NAME ≠ none ∨ ∃ u ∈ urlsToCache, env.fetchedOk u = false) :
    (∃ e, (installShellWork env
        (w.print ⟨"log", "[Service Worker] Installing...", none⟩)).1 = Settled.rejected e) ∧
    (installHandler env w).1 = Settled.resolved () ∧
    ∃ reason, (⟨"error", "[Service Worker] Cache failed:", some reason⟩ : ConsoleEntry)
      ∈ (installHandler env w).2.console := by
  obtain ⟨e, he⟩ := installShellWork_rejects env
    (w.print ⟨"log", "[Service Worker] Installing...", none⟩) hFail
  refine ⟨⟨e, he⟩, installHandler_resolves env w, e, ?_⟩
  have hAll := Promise.all_pair_rejected (installShellWork env) (installRuntimeWork env) _ e he
  simp only [installHandler, installWork, Promise.catchDo]
  rcases h : Promise.all [installShellWork env, installRuntimeWork env]
      (w.print ⟨"log", "[Service Worker] Installing...", none⟩) with ⟨sp, w1⟩
  rw [h] at hAll
  simp only at hAll
  subst hAll
  simp [logThen, Promise.resolve, World.print, World.call]

/-- C6 (as amended): when the fetch of an external resource fails during
install, the promise given to `event.waitUntil` still resolves, and install
adds nothing to the runtime cache (`addAll` stores all entries or none): the
contents of the runtime cache, as of every other cache but the shell cache,
are what they were before install. -/
theorem install_external_failure (env : Env) (w : World)
    (hFail : ∃ u ∈ externalResources, env.fetchedOk u = false) :
    (installHandler env w).1 = Settled.resolved () ∧
    cacheOf (installHandler env w).2.storage RUNTIME_CACHE = cacheOf w.storage RUNTIME_CACHE ∧
    ∀ u ∈ externalResources,
      (u ∈ cacheKeys (cacheOf (installHandler env w).2.storage RUNTIME_CACHE) ↔
        u ∈ cacheKeys (cacheOf w.storage RUNTIME_CACHE)) := by
  have hst : cacheOf (installHandler env w).2.storage RUNTIME_CACHE
      = cacheOf w.storage RUNTIME_CACHE := by
    rw [installHandler_storage, installRuntimeWork_storage_failed _ _ _ hFail,
      installShellWork_storage_other _ _ _ (by decide)]
    rfl
  refine ⟨installHandler_resolves env w, hst, ?_⟩
  intro u _
  rw [hst]

/-- C10: from a storage without shell cache, with the shell cache opening and
every seed fetch succeeding, the keys of the shell cache after one install
and after two installs are the seed list itself, in order and without
duplicates. -/
theorem install_twice_keys (env1 env2 : Env) (w : World)
    (hNone : cachesHas w.storage CACHE_NAME = false)
    (hOpen1 : env1.openError CACHE_NAME = none)
    (hSeeds1 : ∀ u ∈ urlsToCache, env1.fetchedOk u = true)
    (hOpen2 : env2.openError CACHE_NAME = none)
    (hSeeds2 : ∀ u ∈ urlsToCache, env2.fetchedOk u = true) :
    cacheKeys (cacheOf (installHandler env1 w).2.storage CACHE_NAME) = urlsToCache ∧
    cacheKeys (cacheOf (installHandler env2 (installHandler env1 w).2).2.storage CACHE_NAME)
      = urlsToCache ∧
    urlsToCache = ["/", "/index.html", "/manifest.json"] ∧ urlsToCache.Nodup := by
  have hEmpty : cacheOf w.storage CACHE_NAME = [] := by
    rcases cacheOf_mem_or_nil w.storage CACHE_NAME with h | h
    · have : cachesHas w.storage CACHE_NAME = true := by
        simp only [cachesHas, List.any_eq_true]
        exact ⟨_, h, by simp⟩
      rw [hNone] at this
      exact absurd this (by simp)
    · exact h
  have hFirst : cacheKeys (cacheOf (installHandler env1 w).2.storage CACHE_NAME)
      = urlsToCache := by
    rw [installHandler_storage, installRuntimeWork_storage_other _ _ _ (by decide)]
    apply installShellWork_keys _ _ hOpen1 hSeeds1
    intro k hk
    have : cacheOf (w.print ⟨"log", "[Service Worker] Installing...", none⟩).storage
        CACHE_NAME = [] := hEmpty
    rw [this] at hk
    simp [cacheKeys] at hk
  refine ⟨hFirst, ?_, rfl, by decide⟩
  rw [installHandler_storage, installRuntimeWork_storage_other _ _ _ (by decide)]
  apply installShellWork_keys _ _ hOpen2 hSeeds2
  intro k hk
  have : cacheOf ((installHandler env1 w).2.print
      ⟨"log", "[Service Worker] Installing...", none⟩).storage CACHE_NAME
      = cacheOf (installHandler env1 w).2.storage CACHE_NAME := rfl
  rw [this, hFirst] at hk
  exact hk

/-! ## The activate listener -/

theorem Promise.all_cons_world (p : Promise Unit) (ps : List (Promise Unit)) (w : World) :
    (Promise.all (p :: ps) w).2 = (Promise.all ps (p w).2).2 := by
  simp only [Promise.all]
  rcases hp : p w with ⟨sp, w1⟩
  cases sp <;> rfl

theorem deleteIfOld_world (env : Env) (name : String) (w : World) :
    (deleteIfOld env name w).2.storage =
        w.storage.filter
          (fun p => decide (p.1 = name → (p.1 ∈ cacheWhitelist ∨ env.deleteError p.1 ≠ none))) ∧
      (deleteIfOld env name w).2.ops =
        w.ops ++ (if name ∈ cacheWhitelist then [] else [Op.cachesDelete name]) := by
  by_cases hW : name ∈ cacheWhitelist
  · constructor
    · simp only [deleteIfOld, hW, not_true_eq_false, if_false, Promise.resolve]
      symm
      rw [List.filter_eq_self]
      intro p _
      by_cases hp : p.1 = name
      · simp [hp, hW]
      · simp [hp]
    · simp [deleteIfOld, hW, Promise.resolve]
  · cases hD : env.deleteError name with
    | none =>
      constructor
      · simp only [deleteIfOld, hW, not_false_eq_true, if_true, logThen, Promise.thenDo,
          cachesDelete, hD, Promise.resolve, World.print]
        apply List.filter_congr
        intro p _
        by_cases hp : p.1 = name
        · simp [hp, hW, hD]
        · simp [hp]
      · simp [deleteIfOld, hW, logThen, Promise.thenDo, cachesDelete, hD, Promise.resolve,
          World.print]
    | some e =>
      constructor
      · simp only [deleteIfOld, hW, not_false_eq_true, if_true, logThen, Promise.thenDo,
          cachesDelete, hD, World.print, World.call]
        symm
        rw [List.filter_eq_self]
        intro p _
        by_cases hp : p.1 = name
        · simp [hp, hD]
        · simp [hp]
      · simp [deleteIfOld, hW, logThen, Promise.thenDo, cachesDelete, hD, World.print,
          World.call]

/-- The world after the sweep over a list of names: a cache goes exactly when
its name is in the list, is not on the whitelist, and its delete succeeds; a
delete is called for each listed name that is not on the whitelist. -/
theorem sweep_world (env : Env) (names : List String) (w : World) :
    (Promise.all (names.map (deleteIfOld env)) w).2.storage =
        w.storage.filter
          (fun p => decide (p.1 ∈ names → (p.1 ∈ cacheWhitelist ∨ env.deleteError p.1 ≠ none))) ∧
      (Promise.all (names.map (deleteIfOld env)) w).2.ops =
        w.ops ++ (names.filter (fun n => decide (n ∉ cacheWhitelist))).map Op.cachesDelete := by
  induction names generalizing w with
  | nil => simp [Promise.all, Promise.resolve]
  | cons name rest ih =>
    rw [List.map_cons, Promise.all_cons_world]
    obtain ⟨ihS, ihO⟩ := ih (deleteIfOld env name w).2
    obtain ⟨hS, hO⟩ := deleteIfOld_world env name w
    constructor
    · rw [ihS, hS, List.filter_filter]
      apply List.filter_congr
      intro p _
      rw [Bool.eq_iff_iff]
      simp only [Bool.and_eq_true, decide_eq_true_eq, List.mem_cons]
      tauto
    · rw [ihO, hO]
      by_cases hW : name ∈ cacheWhitelist
      · simp [hW, List.filter]
      · simp [hW, List.filter]

theorem activateHandler_world (env : Env) (w : World) :
    (activateHandler env w).2.storage =
        w.storage.filter
          (fun p => decide (p.1 ∈ cacheWhitelist ∨ env.deleteError p.1 ≠ none)) ∧
      (activateHandler env w).2.ops =
        w.ops ++ [Op.cachesKeys, Op.clientsClaim] ++
          ((cacheNames w.storage).filter (fun n => decide (n ∉ cacheWhitelist))).map
            Op.cachesDelete := by
  obtain ⟨hS, hO⟩ := sweep_world env (cacheNames w.storage)
    (((w.print ⟨"log", "[Service Worker] Activating...", none⟩).call Op.cachesKeys).call
      Op.clientsClaim)
  have hw : (activateHandler env w).2 =
      (Promise.all ((cacheNames w.storage).map (deleteIfOld env))
        (((w.print ⟨"log", "[Service Worker] Activating...", none⟩).call
          Op.cachesKeys).call Op.clientsClaim)).2 := rfl
  constructor
  · rw [hw, hS]
    apply List.filter_congr
    intro p hp
    have hmem : p.1 ∈ cacheNames w.storage := List.mem_map_of_mem Prod.fst hp
    simp [hmem]
  · rw [hw, hO]
    simp [World.call, World.print]

/-- C2 (as amended): for every storage, with P the names of its caches and W
the whitelist, the activate listener calls `caches.keys()` and
`self.clients.claim()` and then `caches.delete` for each name of P that is
not in W, in the order of P, and for no name in W, whatever becomes of the
other deletes; the caches that survive are those whose name is in W or whose
delete failed, each with its contents; so the surviving names are P ∩ W
exactly when no delete that is called fails. -/
theorem activate_sweep (env : Env) (w : World) :
    (activateHandler env w).2.ops =
        w.ops ++ [Op.cachesKeys, Op.clientsClaim] ++
          ((cacheNames w.storage).filter (fun n => decide (n ∉ cacheWhitelist))).map
            Op.cachesDelete ∧
      (activateHandler env w).2.storage =
        w.storage.filter
          (fun p => decide (p.1 ∈ cacheWhitelist ∨ env.deleteError p.1 ≠ none)) ∧
      cacheNames (activateHandler env w).2.storage =
        (cacheNames w.storage).filter
          (fun n => decide (n ∈ cacheWhitelist ∨ env.deleteError n ≠ none)) ∧
      ((∀ n ∈ cacheNames w.storage, n ∉ cacheWhitelist → env.deleteError n = none) →
        cacheNames (activateHandler env w).2.storage =
          (cacheNames w.storage).filter (fun n => decide (n ∈ cacheWhitelist))) := by
  obtain ⟨hS, hO⟩ := activateHandler_world env w
  have hN : cacheNames (activateHandler env w).2.storage =
      (cacheNames w.storage).filter
        (fun n => decide (n ∈ cacheWhitelist ∨ env.deleteError n ≠ none)) := by
    rw [hS]
    simp only [cacheNames, List.filter_map]
    rfl
  refine ⟨hO, hS, hN, ?_⟩
  intro hAll
  rw [hN]
  apply List.filter_congr
  intro n hn
  by_cases hW : n ∈ cacheWhitelist
  · simp [hW]
  · simp [hW, hAll n hn hW]

/-! ## Concrete runs -/

/-- C1, counterexample: with the fetch of `/index.html` failing, the shell
member of `Promise.all` rejects, and yet the promise given to
`event.waitUntil` resolves; it does not reject. -/
theorem install_shell_failure_counterexample :
    envSeedDown.fetchedOk "/index.html" = false ∧
      (installShellWork envSeedDown
        (emptyWorld.print ⟨"log", "[Service Worker] Installing...", none⟩)).1
        = Settled.rejected "offline" ∧
      (installHandler envSeedDown emptyWorld).1 = Settled.resolved () ∧
      ¬ ∃ e, (installHandler envSeedDown emptyWorld).1 = Settled.rejected e := by
  refine ⟨by decide, by decide, by decide, ?_⟩
  rintro ⟨e, he⟩
  rw [installHandler_resolves] at he
  exact Settled.noConfusion he

theorem install_shell_failure_caught_witness :
    (installHandler envSeedDown emptyWorld).1 = Settled.resolved () :=
  (install_shell_failure_caught envSeedDown emptyWorld
    (Or.inr ⟨"/index.html", by decide, by decide⟩)).2.1

/-- C2, counterexample: with the delete of `homepage-pwa-v1` failing, the
caches that survive the sweep are `homepage-pwa-v1` and the shell cache, which
is more than the whitelisted names among the existing ones. -/
theorem activate_sweep_counterexample :
    cacheNames (activateHandler envDeleteFails worldAfterUpgrade).2.storage
        = ["homepage-pwa-v1", CACHE_NAME] ∧
      (cacheNames worldAfterUpgrade.storage).filter (fun n => decide (n ∈ cacheWhitelist))
        = [CACHE_NAME] ∧
      cacheNames (activateHandler envDeleteFails worldAfterUpgrade).2.storage
        ≠ (cacheNames worldAfterUpgrade.storage).filter
            (fun n => decide (n ∈ cacheWhitelist)) := by
  refine ⟨by decide, by decide, by decide⟩

theorem fetch_sameOrigin_offline_witness :
    ∃ r, (fetchHandler envOffline appRequest emptyWorld).1 = some (Settled.resolved r) ∧
      r.status = 503 ∧ r.statusText = "Service Unavailable" ∧
      r.headers = [("Content-Type", "text/plain")] ∧
      r.body = "Offline - Please check your internet connection" :=
  fetch_sameOrigin_offline envOffline appRequest emptyWorld "offline" (by decide) (by decide)
    rfl

theorem fetch_sameOrigin_cacheHit_witness :
    ∃ r, (fetchHandler envOffline appRequest worldWithApp).1 = some (Settled.resolved r) ∧
      storageMatch worldWithApp.storage appRequest.url = some r ∧
      (∃ p ∈ worldWithApp.storage, (appRequest.url, r) ∈ p.2) ∧
      (fetchHandler envOffline appRequest worldWithApp).2.ops
        = worldWithApp.ops ++ [Op.cachesMatch appRequest.url] ∧
      (fetchHandler envOffline appRequest worldWithApp).2.storage = worldWithApp.storage :=
  fetch_sameOrigin_cacheHit envOffline appRequest worldWithApp (by decide)
    (Or.inl (by decide))

theorem fetch_crossOrigin_passThrough_witness :
    fetchHandler envOnline scriptRequest worldWithApp = (none, worldWithApp) :=
  fetch_crossOrigin_passThrough envOnline scriptRequest worldWithApp (by decide) (by decide)
    (by decide)

/-- C6, counterexample: with the fetch of the logo failing and the two other
external fetches answering 200, install completes and the runtime cache is
empty: the font and the icon are not among its keys. -/
theorem install_external_failure_counterexample :
    (∀ u ∈ externalResources,
        u ≠ "https://brave.com/static-assets/images/brave-logo.svg" →
          envLogoDown.fetchedOk u = true) ∧
      (installHandler envLogoDown emptyWorld).1 = Settled.resolved () ∧
      cacheKeys (cacheOf (installHandler envLogoDown emptyWorld).2.storage RUNTIME_CACHE)
        = [] ∧
      ¬ (∀ u ∈ externalResources, envLogoDown.fetchedOk u = true →
          u ∈ cacheKeys
            (cacheOf (installHandler envLogoDown emptyWorld).2.storage RUNTIME_CACHE)) := by
  refine ⟨by decide, by decide, by decide, by decide⟩

theorem install_external_failure_witness :
    (installHandler envLogoDown emptyWorld).1 = Settled.resolved () ∧
      cacheOf (installHandler envLogoDown emptyWorld).2.storage RUNTIME_CACHE
        = cacheOf emptyWorld.storage RUNTIME_CACHE :=
  ⟨(install_external_failure envLogoDown emptyWorld
      ⟨"https://brave.com/static-assets/images/brave-logo.svg", by decide, by decide⟩).1,
    (install_external_failure envLogoDown emptyWorld
      ⟨"https://brave.com/static-assets/images/brave-logo.svg", by decide, by decide⟩).2.1⟩

/-- C7, counterexample: a same-origin request is answered 200, basic, with
`Vary: *`; the put is called and rejected, and the response is not in the
shell cache. -/
theorem fetch_sameOrigin_miss_counterexample :
    envVaryBasic.net appRequest.url = Except.ok (varyResponse "basic" appRequest.url) ∧
      (varyResponse "basic" appRequest.url).status = 200 ∧
      (varyResponse "basic" appRequest.url).type = "basic" ∧
      (fetchHandler envVaryBasic appRequest emptyWorld).2.ops =
        [Op.cachesMatch appRequest.url, Op.fetch appRequest.url, Op.cachesOpen CACHE_NAME,
          Op.cachePut CACHE_NAME appRequest.url (varyResponse "basic" appRequest.url)] ∧
      cacheMatch (cacheOf (fetchHandler envVaryBasic appRequest emptyWorld).2.storage
        CACHE_NAME) appRequest.url = none ∧
      cacheOf (fetchHandler envVaryBasic appRequest emptyWorld).2.storage CACHE_NAME = [] := by
  refine ⟨rfl, rfl, rfl, by decide, by decide, by decide⟩

theorem fetch_sameOrigin_miss_witness :
    (fetchHandler envOnline appRequest emptyWorld).1
        = some (Settled.resolved (okResponse "basic" "https://home.example/app.js")) ∧
      cacheMatch (cacheOf (fetchHandler envOnline appRequest emptyWorld).2.storage CACHE_NAME)
        appRequest.url = some (okResponse "basic" "https://home.example/app.js") :=
  ⟨(fetch_sameOrigin_miss envOnline appRequest emptyWorld
      (okResponse "basic" "https://home.example/app.js") (by decide) (by decide) rfl).1,
    ((fetch_sameOrigin_miss envOnline appRequest emptyWorld
      (okResponse "basic" "https://home.example/app.js") (by decide) (by decide) rfl).2.2.1
        (by decide) (by decide) (by decide)).2⟩

/-- C8, counterexample: a cross-origin font request is answered 200 with
`Vary: *`; the put is called and rejected, and the response is not in the
runtime cache. -/
theorem fetch_crossOrigin_cacheable_counterexample :
    envVaryCors.net fontRequest.url = Except.ok (varyResponse "cors" fontRequest.url) ∧
      (varyResponse "cors" fontRequest.url).status = 200 ∧
      (fetchHandler envVaryCors fontRequest emptyWorld).2.ops =
        [Op.cachesMatch fontRequest.url, Op.fetch fontRequest.url,
          Op.cachesOpen RUNTIME_CACHE,
          Op.cachePut RUNTIME_CACHE fontRequest.url (varyResponse "cors" fontRequest.url)] ∧
      cacheMatch (cacheOf (fetchHandler envVaryCors fontRequest emptyWorld).2.storage
        RUNTIME_CACHE) fontRequest.url = none ∧
      cacheOf (fetchHandler envVaryCors fontRequest emptyWorld).2.storage RUNTIME_CACHE
        = [] := by
  refine ⟨rfl, rfl, by decide, by decide, by decide⟩

theorem fetch_crossOrigin_cacheable_witness :
    fetchHandler envOffline fontRequest worldWithFont =
        (some (Settled.resolved (okResponse "cors" "cached font")),
          worldWithFont.call (Op.cachesMatch fontRequest.url)) ∧
      cacheMatch (cacheOf (fetchHandler envOnline fontRequest emptyWorld).2.storage
        RUNTIME_CACHE) fontRequest.url = some (okResponse "basic" fontRequest.url) :=
  ⟨(fetch_crossOrigin_cacheable envOffline fontRequest worldWithFont (by decide)
      (Or.inl (by decide))).1 (okResponse "cors" "cached font") (by decide),
    (((fetch_crossOrigin_cacheable envOnline fontRequest emptyWorld (by decide)
      (Or.inl (by decide))).2 (okResponse "basic" fontRequest.url) (by decide) rfl).2.2.2.1
        (by decide) (by decide) (by decide)).2⟩

theorem fetch_crossOrigin_failure_witness :
    (fetchHandler envOffline fontRequest emptyWorld).1 = some (Settled.rejected "offline") ∧
      (fetchHandler envOffline fontRequest emptyWorld).2.ops =
        emptyWorld.ops ++ [Op.cachesMatch fontRequest.url, Op.fetch fontRequest.url] ∧
      (fetchHandler envOffline fontRequest emptyWorld).2.storage = emptyWorld.storage ∧
      (fetchHandler envOffline fontRequest emptyWorld).2.console = emptyWorld.console :=
  fetch_crossOrigin_failure envOffline fontRequest emptyWorld "offline" (by decide)
    (Or.inl (by decide)) (by decide) rfl

theorem install_twice_keys_witness :
    cacheKeys (cacheOf (installHandler envOnline emptyWorld).2.storage CACHE_NAME)
        = urlsToCache ∧
      cacheKeys (cacheOf (installHandler envOnline
        (installHandler envOnline emptyWorld).2).2.storage CACHE_NAME) = urlsToCache ∧
      urlsToCache = ["/", "/index.html", "/manifest.json"] ∧ urlsToCache.Nodup :=
  install_twice_keys envOnline envOnline emptyWorld (by decide) rfl (by decide) rfl
    (by decide)

end SW
